import Mathlib

/-!
Shallow embedding of the Mini IDM download-job orchestrator
(src/backend/main.py) and verification of the frozen claims.

Modelling conventions:
- Python floats are idealized as exact rationals (`Rat`);
  `round(x, 2)` is modelled as round-half-to-even on rationals.
- `sqlite` rows are a `List Row`; an `UPDATE ... WHERE id=?` maps over all
  rows with that id (`db_update`), touching zero rows when the id is absent.
- Python dicts (`ACTIVE_DOWNLOADS`, `_META_CACHE`) are association lists with
  replace-on-assign semantics.
- The two `threading.Event` control signals are modelled as a timeline:
  `cancelAt / pauseAt : Option Nat` give the earliest progress-hook
  invocation index at which `is_set()` returns true (the events are only
  ever set, never cleared, so visibility is monotone in time);
  `cancelFinal / pauseFinal : Bool` are the values `is_set()` returns at the
  post-run exception handler.  A signal set strictly before the blocking
  engine call returns but after the last hook invocation is represented by
  an index equal to the number of ticks.
- The blocking `YoutubeDL(...).download([url])` call is modelled by the list
  of progress-hook ticks it delivers plus `engineFails : Bool` for an
  engine-raised exception after all ticks.
-/

namespace MiniIDM

/-- Python truthiness fallback `a or b` for optional integers (0 and None are falsy). -/
def pyOrN (o : Option Nat) (d : Nat) : Nat :=
  match o with
  | some n => if n = 0 then d else n
  | none => d

/-- Python truthiness fallback `a or b` for optional rationals (0 and None are falsy). -/
def pyOrR (o : Option Rat) (d : Rat) : Rat :=
  match o with
  | some q => if q = 0 then d else q
  | none => d

/-- Python truthiness fallback `a or b` for optional strings (empty and None are falsy). -/
def pyOrS (o : Option String) (d : String) : String :=
  match o with
  | some s => if s = "" then d else s
  | none => d

/-- Round a rational to the nearest integer, ties to even (Python `round`). -/
def roundHalfEven (q : Rat) : Int :=
  let f := q.floor
  let frac := q - (f : Rat)
  if frac < 1/2 then f
  else if 1/2 < frac then f + 1
  else if f % 2 = 0 then f else f + 1

/-- Python `round(q, 2)`, idealized over the rationals. -/
def round2 (q : Rat) : Rat := ((roundHalfEven (q * 100) : Int) : Rat) / 100

/-- Characters removed by `sanitize_filename` (the raw string r-backslash/<>:?"| *). -/
def forbiddenChars : List Char := ['\\', '/', '<', '>', ':', '?', '"', '|', ' ', '*']

/-- Split a character list into its maximal whitespace-free words (Python `str.split()`):
the accumulator holds the current word reversed. -/
def wordsAux : List Char → List Char → List (List Char)
  | [], acc => if acc.isEmpty then [] else [acc.reverse]
  | c :: rest, acc =>
    if c.isWhitespace then
      if acc.isEmpty then wordsAux rest [] else acc.reverse :: wordsAux rest []
    else wordsAux rest (c :: acc)

/-- Join words with a single underscore (Python `"_".join(words)`). -/
def joinUnderscore : List (List Char) → List Char
  | [] => []
  | [w] => w
  | w :: rest => w ++ '_' :: joinUnderscore rest

/-- Embedding of `sanitize_filename` (main.py:120-124): drop forbidden characters,
then join the whitespace-separated words with underscores. -/
def sanitize_filename (name : String) : String :=
  if name = "" then ""
  else String.mk (joinUnderscore (wordsAux (name.data.filter (fun c => ¬ c ∈ forbiddenChars)) []))

/-- A persisted row of the `downloads` table (main.py:47-57). -/
structure Row where
  id : Nat
  url : String
  filename : String
  title : String
  status : String
  progress : Rat
  created_at : String
deriving DecidableEq

/-- The job store: the `downloads` table contents. -/
abbrev Store := List Row

/-- Point lookup by id (first row with the id, as `fetchone` after a WHERE id=?). -/
def getRow : Store → Nat → Option Row
  | [], _ => none
  | r :: rest, id => if r.id == id then some r else getRow rest id

/-- The row transformation applied by `db_update`: set status, and progress unless None. -/
def updRow (progress : Option Rat) (status : String) (r : Row) : Row :=
  match progress with
  | none => { r with status := status }
  | some v => { r with progress := v, status := status }

/-- Embedding of `db_update` (main.py:85-96): UPDATE downloads SET [progress,]status
WHERE id=?.  Updates every row with the id; touches zero rows when absent. -/
def db_update : Store → Nat → Option Rat → String → Store
  | [], _, _, _ => []
  | r :: rest, id, p, s =>
      (if r.id == id then updRow p s r else r) :: db_update rest id p s

/-- Status of the job's row, when present. -/
def statusOf (store : Store) (id : Nat) : Option String := (getRow store id).map Row.status

/-- Progress of the job's row, when present. -/
def progressOf (store : Store) (id : Nat) : Option Rat := (getRow store id).map Row.progress

/-- Events published over the WebSocket broadcaster. -/
inductive Event
  | progress (id : Nat) (pct : Rat) (speed : Option Rat) (eta : Option Nat)
  | done (id : Nat)
  | cancelledEv (id : Nat)
  | pausedEv (id : Nat)
  | errorEv (id : Nat) (msg : String)
deriving DecidableEq

/-- A live control handle, one entry of `ACTIVE_DOWNLOADS` (main.py:264-270). -/
structure Handle where
  pauseSet : Bool
  cancelSet : Bool
  url : String
  filename : String
  quality : String
deriving DecidableEq

/-- The job registry `ACTIVE_DOWNLOADS`, a dict keyed by download id. -/
abbrev Registry := List (Nat × Handle)

/-- Dict lookup `ACTIVE_DOWNLOADS.get(id)`. -/
def registryGet : Registry → Nat → Option Handle
  | [], _ => none
  | p :: rest, id => if p.1 == id then some p.2 else registryGet rest id

/-- Remove every entry for the id (`ACTIVE_DOWNLOADS.pop(id, None)`). -/
def registryDel : Registry → Nat → Registry
  | [], _ => []
  | p :: rest, id => if p.1 == id then registryDel rest id else p :: registryDel rest id

/-- Dict assignment `ACTIVE_DOWNLOADS[id] = handle`: replaces any prior entry. -/
def registryInsert (reg : Registry) (id : Nat) (h : Handle) : Registry :=
  (id, h) :: registryDel reg id

/-- Number of registry entries for an id. -/
def registryCount : Registry → Nat → Nat
  | [], _ => 0
  | p :: rest, id => (if p.1 == id then 1 else 0) + registryCount rest id

/-- One invocation of the yt-dlp progress hook: the fields of `d` the hook reads. -/
structure Tick where
  status : String
  downloaded_bytes : Option Nat
  total_bytes : Option Nat
  total_bytes_estimate : Option Nat
  speed : Option Rat
  eta : Option Nat
deriving DecidableEq

/-- The percentage the hook computes on a downloading tick (main.py:284-289):
round(downloaded / (total_bytes or total_bytes_estimate or 1) * 100, 2). -/
def hookPct (t : Tick) : Rat :=
  round2 (((pyOrN t.downloaded_bytes 0 : Nat) : Rat)
    / ((pyOrN t.total_bytes (pyOrN t.total_bytes_estimate 1) : Nat) : Rat) * 100)

/-- Effect of one hook invocation past the signal checks (main.py:283-302):
a downloading tick broadcasts the percentage and persists pct/100 with status
downloading; a finished tick broadcasts done and persists 1.0 completed. -/
def hookTick (id : Nat) (store : Store) (t : Tick) : Store × List Event :=
  if t.status = "downloading" then
    (db_update store id (some (hookPct t / 100)) "downloading",
     [Event.progress id (hookPct t) t.speed t.eta])
  else if t.status = "finished" then
    (db_update store id (some 1) "completed", [Event.done id])
  else (store, [])

/-- Whether a signal set at hook-index `k` (if ever) is visible at hook-index `i`. -/
def sigAt (o : Option Nat) (i : Nat) : Bool :=
  match o with
  | some k => decide (k ≤ i)
  | none => false

/-- The engine's hook loop: each tick first checks cancel, then pause — either
being set raises DownloadCancelled (main.py:272-281), aborting before the tick
is processed; otherwise the tick's effect is applied.  Returns the store, the
broadcast events, and whether the hook raised. -/
def processTicks (id : Nat) (cAt pAt : Option Nat) : Nat → Store → List Tick → Store × List Event × Bool
  | _, store, [] => (store, [], false)
  | i, store, t :: rest =>
    if sigAt cAt i then (store, [], true)
    else if sigAt pAt i then (store, [], true)
    else
      ((processTicks id cAt pAt (i + 1) (hookTick id store t).1 rest).1,
       (hookTick id store t).2 ++ (processTicks id cAt pAt (i + 1) (hookTick id store t).1 rest).2.1,
       (processTicks id cAt pAt (i + 1) (hookTick id store t).1 rest).2.2)

/-- Environment of one run: the signal timeline (see module comment) and whether
the engine itself raises after delivering all ticks. -/
structure SignalEnv where
  cancelAt : Option Nat
  pauseAt : Option Nat
  cancelFinal : Bool
  pauseFinal : Bool
  engineFails : Bool
  errMsg : String
deriving DecidableEq

/-- The sanitized output stem: `sanitize_filename(filename) or f"video_{ts}"` (main.py:304). -/
def safeStem (filename : String) (now : Nat) : String :=
  let s := sanitize_filename filename
  if s = "" then "video_" ++ toString now else s

/-- Whether the first list is an initial segment of the second. -/
def beginsWith : List Char → List Char → Bool
  | [], _ => true
  | _ :: _, [] => false
  | p :: ps, c :: cs => (p == c) && beginsWith ps cs

/-- Whether a file in the downloads directory matches the glob `safe.*` (main.py:331). -/
def matchesStem (safe f : String) : Bool := beginsWith (safe.data ++ ['.']) f.data

/-- The except-branch of `run_download` (main.py:327-357): cancel wins over pause;
cancel deletes partial artifacts and persists cancelled/0; pause keeps files and
re-persists the progress read back from the store; otherwise error/0. -/
def exceptHandler (id : Nat) (safe : String) (cancelFinal pauseFinal : Bool)
    (errMsg : String) (store : Store) (files : List String) :
    Store × List String × List Event :=
  if cancelFinal then
    (db_update store id (some 0) "cancelled",
     files.filter (fun f => ¬ matchesStem safe f),
     [Event.cancelledEv id])
  else if pauseFinal then
    (db_update store id (some (((getRow store id).map Row.progress).getD 0)) "paused",
     files, [Event.pausedEv id])
  else
    (db_update store id (some 0) "error", files, [Event.errorEv id errMsg])

/-- World state threaded through a run. -/
structure RunState where
  store : Store
  registry : Registry
  files : List String
  events : List Event

/-- The fresh control handle registered at run start (main.py:262-270). -/
def runHandle (url filename quality : String) : Handle :=
  { pauseSet := false, cancelSet := false, url := url, filename := filename, quality := quality }

/-- Embedding of `run_download` (main.py:253-359): register a fresh handle
(replacing any prior one), invoke the engine with the progress hook, run the
except branch when the call raises (hook abort or engine failure), do nothing
on normal return, and unconditionally pop the handle in the finally block. -/
def run_download (st : RunState) (id : Nat) (url filename quality : String)
    (resume : Bool) (now : Nat) (ticks : List Tick) (env : SignalEnv) : RunState :=
  if (processTicks id env.cancelAt env.pauseAt 0 st.store ticks).2.2 || env.engineFails then
    { store := (exceptHandler id (safeStem filename now) env.cancelFinal env.pauseFinal env.errMsg
        (processTicks id env.cancelAt env.pauseAt 0 st.store ticks).1 st.files).1,
      registry := registryDel (registryInsert st.registry id (runHandle url filename quality)) id,
      files := (exceptHandler id (safeStem filename now) env.cancelFinal env.pauseFinal env.errMsg
        (processTicks id env.cancelAt env.pauseAt 0 st.store ticks).1 st.files).2.1,
      events := st.events ++ (processTicks id env.cancelAt env.pauseAt 0 st.store ticks).2.1
        ++ (exceptHandler id (safeStem filename now) env.cancelFinal env.pauseFinal env.errMsg
            (processTicks id env.cancelAt env.pauseAt 0 st.store ticks).1 st.files).2.2 }
  else
    { store := (processTicks id env.cancelAt env.pauseAt 0 st.store ticks).1,
      registry := registryDel (registryInsert st.registry id (runHandle url filename quality)) id,
      files := st.files,
      events := st.events ++ (processTicks id env.cancelAt env.pauseAt 0 st.store ticks).2.1 }

/-- Response of the resume endpoint (main.py:467-488). -/
inductive ResumeResponse
  | notFound
  | invalidState (status : String)
  | resuming (id : Nat)
deriving DecidableEq

/-- The parameters with which a new run is launched via `asyncio.create_task`. -/
structure RunStart where
  id : Nat
  url : String
  filename : String
  quality : String
  resume : Bool
deriving DecidableEq

/-- The default quality selector used when no cached handle is available. -/
def defaultQuality : String := "bestvideo+bestaudio/best"

/-- Embedding of `resume_download` (main.py:467-488): 404 when the row is
absent, 400 when its status is not paused; otherwise reuse the quality from
the registry entry if still present (else the default), reset the status to
queued without touching progress, and start a new run with resume=True. -/
def resume_download (store : Store) (reg : Registry) (id : Nat) :
    ResumeResponse × Store × Option RunStart :=
  match getRow store id with
  | none => (ResumeResponse.notFound, store, none)
  | some r =>
    if r.status = "paused" then
      (ResumeResponse.resuming id, db_update store id none "queued",
       some { id := id, url := r.url, filename := r.filename,
              quality := (match registryGet reg id with
                          | some h => h.quality
                          | none => defaultQuality),
              resume := true })
    else (ResumeResponse.invalidState r.status, store, none)

/-- Response of the cancel endpoint (main.py:491-502). -/
inductive CancelResponse
  | cancelling (id : Nat)
  | cancelledAck (id : Nat)
deriving DecidableEq

/-- Set the cancel signal on a live handle (`entry["cancel_event"].set()`). -/
def setCancel (reg : Registry) (id : Nat) : Registry :=
  reg.map (fun p => if p.1 == id then (p.1, { p.2 with cancelSet := true }) else p)

/-- Embedding of `cancel_download` (main.py:491-502).  With a live handle, set
its cancel signal and acknowledge asynchronously.  Without one, mark the row
cancelled with progress 0 directly and broadcast the cancellation event; the
returned event list is published (awaited) before the response is returned. -/
def cancel_download (reg : Registry) (store : Store) (id : Nat) :
    CancelResponse × Registry × Store × List Event :=
  match registryGet reg id with
  | some _ => (CancelResponse.cancelling id, setCancel reg id, store, [])
  | none =>
    (CancelResponse.cancelledAck id, reg, db_update store id (some 0) "cancelled",
     [Event.cancelledEv id])

/-- A normalized download option offered to the UI (docstring of `_parse_formats`):
height is none for the automatic best choice and some 0 for audio-only. -/
structure FormatOption where
  label : String
  format_str : String
  height : Option Nat
deriving DecidableEq

/-- The subset of a raw yt-dlp format dict that `_parse_formats` reads. -/
structure RawFormat where
  height : Option Nat
  vcodec : Option String
  acodec : Option String
  tbr : Option Rat
  vbr : Option Rat
deriving DecidableEq

/-- The automatic best option always prepended (main.py:170-171). -/
def bestOption : FormatOption :=
  { label := "Best (auto)", format_str := "bestvideo+bestaudio/best", height := none }

/-- The audio-only option appended when a source format is audio-only (main.py:183). -/
def audioOption : FormatOption :=
  { label := "Audio only", format_str := "bestaudio/best", height := some 0 }

/-- Python truthiness of an optional integer. -/
def truthyNat (o : Option Nat) : Bool :=
  match o with
  | some n => n != 0
  | none => false

/-- The video formats retained for dedup (main.py:153-156): truthy height and a vcodec. -/
def video_fmts (raw : List RawFormat) : List RawFormat :=
  raw.filter (fun f => truthyNat f.height && (f.vcodec.getD "none" != "none"))

/-- Whether any source format is audio-only (main.py:157-160). -/
def has_audio_only (raw : List RawFormat) : Bool :=
  raw.any (fun f => (f.acodec.getD "none" != "none") && (f.vcodec.getD "none" == "none"))

/-- The bitrate score of a candidate: `float(f.get("tbr") or f.get("vbr") or 0)`. -/
def candRate (f : RawFormat) : Rat := pyOrR f.tbr (pyOrR f.vbr 0)

/-- The `by_height` loop (main.py:163-168).  Note the asymmetry kept from the
source: a candidate is scored by tbr-or-vbr, but the incumbent only by its
tbr field (`float(by_height[h].get("tbr") or 0)`). -/
def dedupByHeight (fmts : List RawFormat) : List (Nat × RawFormat) :=
  fmts.foldl (fun m f =>
    let h := f.height.getD 0
    match m.find? (fun p => p.1 == h) with
    | none => m ++ [(h, f)]
    | some p =>
        if candRate f > pyOrR p.2.tbr 0 then
          m.map (fun q => if q.1 == h then (h, f) else q)
        else m) []

/-- Descending insertion into a sorted list. -/
def insertDesc (h : Nat) : List Nat → List Nat
  | [] => [h]
  | x :: xs => if h ≥ x then h :: x :: xs else x :: insertDesc h xs

/-- Sort descending (`sorted(keys, reverse=True)`). -/
def sortDesc : List Nat → List Nat
  | [] => []
  | x :: xs => insertDesc x (sortDesc xs)

/-- The UI label for a resolution entry (main.py:175). -/
def heightLabel (h : Nat) : String :=
  if h ≥ 2160 then "4K (" ++ toString h ++ "p)" else toString h ++ "p"

/-- The selector string for a resolution entry (main.py:178). -/
def heightFormatStr (h : Nat) : String :=
  "bestvideo[height<=" ++ toString h ++ "]+bestaudio/best[height<=" ++ toString h ++ "]"

/-- Embedding of `_parse_formats` (main.py:141-185): best-auto first, one entry
per distinct height in descending order, audio-only appended when present. -/
def _parse_formats (raw : List RawFormat) : List FormatOption :=
  (bestOption ::
    (sortDesc ((dedupByHeight (video_fmts raw)).map Prod.fst)).map (fun h =>
      { label := heightLabel h, format_str := heightFormatStr h, height := some h }))
  ++ (if has_audio_only raw then [audioOption] else [])

/-- Two-digit zero padding. -/
def pad2 (n : Nat) : String := if n < 10 then "0" ++ toString n else toString n

/-- Embedding of `_format_duration` (main.py:129-138). -/
def _format_duration (seconds : Option Nat) : String :=
  match seconds with
  | none => ""
  | some s =>
    if s = 0 then ""
    else
      let h := s / 3600
      let m := (s % 3600) / 60
      let s2 := (s % 3600) % 60
      if h ≠ 0 then toString h ++ ":" ++ pad2 m ++ ":" ++ pad2 s2
      else toString m ++ ":" ++ pad2 s2

/-- The metadata payload returned by `/meta` and cached per URL. -/
structure MetaResult where
  title : String
  duration : String
  formats : List FormatOption
  thumbnail : String
  source : String
  error : Option String
deriving DecidableEq

/-- The fields of the yt-dlp info dict that the success path reads. -/
structure Info where
  title : Option String
  fulltitle : Option String
  duration : Option Nat
  formats : Option (List RawFormat)
  thumbnail : Option String

/-- The success path of `_extract_meta_sync` (main.py:203-213); the source tag
of a successful extraction is the literal "yt_dlp" (the spec calls this
outcome "resolved"). -/
def extract_meta_success (info : Info) : MetaResult :=
  { title := pyOrS info.title (pyOrS info.fulltitle "")
    duration := _format_duration info.duration
    formats := _parse_formats (info.formats.getD [])
    thumbnail := pyOrS info.thumbnail ""
    source := "yt_dlp"
    error := none }

/-- One entry of `_META_CACHE` (main.py:38): resolution timestamp and payload. -/
structure CacheEntry where
  ts : Int
  data : MetaResult
deriving DecidableEq

/-- The process-wide metadata cache, a dict keyed by URL. -/
abbrev MetaCache := List (String × CacheEntry)

/-- Dict lookup `_META_CACHE.get(url)`. -/
def cacheGet : MetaCache → String → Option CacheEntry
  | [], _ => none
  | p :: rest, url => if p.1 == url then some p.2 else cacheGet rest url

/-- Dict assignment `_META_CACHE[url] = entry`. -/
def cacheSet : MetaCache → String → CacheEntry → MetaCache
  | [], url, e => [(url, e)]
  | p :: rest, url, e => if p.1 == url then (url, e) :: rest else p :: cacheSet rest url e

/-- The cache TTL in seconds (main.py:39). -/
def META_CACHE_TTL : Int := 300

/-- What the 30s-guarded extraction produces: either the extractor's result
(success or its internal fallback) or a caller-side timeout. -/
inductive ExtractorBehavior
  | returns (r : MetaResult)
  | timesOut
deriving DecidableEq

/-- The degraded result built on timeout (main.py:420-428). -/
def timeoutResult : MetaResult :=
  { title := "", duration := "", formats := [bestOption], thumbnail := ""
    source := "timeout", error := some "Metadata extraction timed out" }

/-- The payload an extraction attempt yields under a given behavior. -/
def extractResult : ExtractorBehavior → MetaResult
  | ExtractorBehavior.returns r => r
  | ExtractorBehavior.timesOut => timeoutResult

/-- Response of the `/meta` endpoint. -/
inductive MetaResponse
  | badRequest
  | ok (r : MetaResult)
deriving DecidableEq

/-- Embedding of `get_meta` (main.py:401-431).  `now` is `time.time()` at the
freshness check, `writeTime` at the cache write (after extraction); the third
component records whether the external extractor was invoked. -/
def get_meta (cache : MetaCache) (url : String) (now writeTime : Int)
    (beh : ExtractorBehavior) : MetaResponse × MetaCache × Bool :=
  if url = "" then (MetaResponse.badRequest, cache, false)
  else
    match cacheGet cache url with
    | some e =>
      if now - e.ts < META_CACHE_TTL then (MetaResponse.ok e.data, cache, false)
      else (MetaResponse.ok (extractResult beh),
            cacheSet cache url { ts := writeTime, data := extractResult beh }, true)
    | none =>
      (MetaResponse.ok (extractResult beh),
       cacheSet cache url { ts := writeTime, data := extractResult beh }, true)

/-! ## Helper lemmas about the store -/

theorem updRow_id (p : Option Rat) (s : String) (r : Row) : (updRow p s r).id = r.id := by
  cases p <;> rfl

theorem updRow_status (p : Option Rat) (s : String) (r : Row) : (updRow p s r).status = s := by
  cases p <;> rfl

theorem updRow_progress_some (v : Rat) (s : String) (r : Row) :
    (updRow (some v) s r).progress = v := rfl

theorem updRow_progress_none (s : String) (r : Row) :
    (updRow none s r).progress = r.progress := rfl

theorem getRow_db_update (store : Store) (id : Nat) (p : Option Rat) (s : String) :
    getRow (db_update store id p s) id = (getRow store id).map (updRow p s) := by
  induction store with
  | nil => rfl
  | cons r rest ih =>
    cases hb : (r.id == id) with
    | true => simp [db_update, getRow, hb, updRow_id]
    | false => simp [db_update, getRow, hb, updRow_id, ih]

theorem isSome_getRow_db_update (store : Store) (id : Nat) (p : Option Rat) (s : String) :
    (getRow (db_update store id p s) id).isSome = (getRow store id).isSome := by
  rw [getRow_db_update]; cases getRow store id <;> rfl

theorem statusOf_db_update (store : Store) (id : Nat) (p : Option Rat) (s : String) :
    statusOf (db_update store id p s) id = (getRow store id).map (fun _ => s) := by
  unfold statusOf
  rw [getRow_db_update]
  cases getRow store id with
  | none => rfl
  | some r => simp [updRow_status]

theorem statusOf_db_update_of_isSome (store : Store) (id : Nat) (p : Option Rat) (s : String)
    (h : (getRow store id).isSome = true) :
    statusOf (db_update store id p s) id = some s := by
  rw [statusOf_db_update]
  cases hg : getRow store id with
  | none => rw [hg] at h; simp at h
  | some r => rfl

theorem progressOf_db_update_some (store : Store) (id : Nat) (v : Rat) (s : String)
    (h : (getRow store id).isSome = true) :
    progressOf (db_update store id (some v) s) id = some v := by
  unfold progressOf
  rw [getRow_db_update]
  cases hg : getRow store id with
  | none => rw [hg] at h; simp at h
  | some r => simp [updRow_progress_some]

theorem progressOf_db_update_none (store : Store) (id : Nat) (s : String) :
    progressOf (db_update store id none s) id = progressOf store id := by
  unfold progressOf
  rw [getRow_db_update]
  cases getRow store id with
  | none => rfl
  | some r => simp [updRow_progress_none]

theorem db_update_absent (store : Store) (id : Nat) (p : Option Rat) (s : String)
    (h : getRow store id = none) : db_update store id p s = store := by
  induction store with
  | nil => rfl
  | cons r rest ih =>
    cases hb : (r.id == id) with
    | true => rw [getRow] at h; simp [hb] at h
    | false =>
      rw [getRow] at h
      simp only [hb] at h
      simp [db_update, hb, ih h]

/-! ## Helper lemmas about the engine loop -/

theorem isSome_getRow_hookTick (id : Nat) (store : Store) (t : Tick) :
    (getRow (hookTick id store t).1 id).isSome = (getRow store id).isSome := by
  unfold hookTick
  split
  · simp [isSome_getRow_db_update]
  · split
    · simp [isSome_getRow_db_update]
    · rfl

theorem isSome_getRow_processTicks (id : Nat) (cAt pAt : Option Nat) (ticks : List Tick) :
    ∀ (i : Nat) (store : Store),
    (getRow (processTicks id cAt pAt i store ticks).1 id).isSome = (getRow store id).isSome := by
  induction ticks with
  | nil => intro i store; rfl
  | cons t rest ih =>
    intro i store
    unfold processTicks
    split
    · rfl
    · split
      · rfl
      · rw [ih (i + 1) (hookTick id store t).1, isSome_getRow_hookTick]

theorem statusOf_hookTick_ne_completed (id : Nat) (store : Store) (t : Tick)
    (ht : t.status ≠ "finished") (h : statusOf store id ≠ some "completed") :
    statusOf (hookTick id store t).1 id ≠ some "completed" := by
  unfold hookTick
  by_cases hd : t.status = "downloading"
  · rw [if_pos hd]
    show statusOf (db_update store id (some (hookPct t / 100)) "downloading") id ≠ some "completed"
    rw [statusOf_db_update]
    cases getRow store id with
    | none => simp
    | some r => simp
  · rw [if_neg hd, if_neg ht]
    exact h

theorem statusOf_processTicks_ne_completed (id : Nat) (cAt pAt : Option Nat) (ticks : List Tick)
    (hnf : ∀ t ∈ ticks, t.status ≠ "finished") :
    ∀ (i : Nat) (store : Store), statusOf store id ≠ some "completed" →
    statusOf (processTicks id cAt pAt i store ticks).1 id ≠ some "completed" := by
  induction ticks with
  | nil => intro i store h; exact h
  | cons t rest ih =>
    intro i store h
    have ht : t.status ≠ "finished" := hnf t (by simp)
    have hrest : ∀ t2 ∈ rest, t2.status ≠ "finished" := fun t2 hm => hnf t2 (by simp [hm])
    unfold processTicks
    split
    · exact h
    · split
      · exact h
      · exact ih hrest (i + 1) (hookTick id store t).1
          (statusOf_hookTick_ne_completed id store t ht h)

theorem processTicks_no_signals_not_raised (id : Nat) (ticks : List Tick) :
    ∀ (i : Nat) (store : Store), (processTicks id none none i store ticks).2.2 = false := by
  induction ticks with
  | nil => intro i store; rfl
  | cons t rest ih =>
    intro i store
    unfold processTicks
    simp [sigAt, ih]

theorem processTicks_raised_of_cancel (id : Nat) (k : Nat) (pAt : Option Nat) (ticks : List Tick) :
    ∀ (i : Nat) (store : Store), i ≤ k → k < i + ticks.length →
    (processTicks id (some k) pAt i store ticks).2.2 = true := by
  induction ticks with
  | nil => intro i store hik hk; simp at hk; omega
  | cons t rest ih =>
    intro i store hik hk
    unfold processTicks
    by_cases hki : k ≤ i
    · simp [sigAt, hki]
    · have h1 : sigAt (some k) i = false := by simp [sigAt]; omega
      rw [h1]
      simp only [Bool.false_eq_true, if_false]
      split
      · rfl
      · exact ih (i + 1) (hookTick id store t).1 (by omega) (by simp at hk ⊢; omega)

/-! ## Helper lemmas about the registry and the metadata cache -/

theorem registryGet_registryDel (reg : Registry) (id : Nat) :
    registryGet (registryDel reg id) id = none := by
  induction reg with
  | nil => rfl
  | cons p rest ih =>
    cases hb : (p.1 == id) with
    | true => simp [registryDel, hb, ih]
    | false => simp [registryDel, registryGet, hb, ih]

theorem registryCount_registryDel (reg : Registry) (id : Nat) :
    registryCount (registryDel reg id) id = 0 := by
  induction reg with
  | nil => rfl
  | cons p rest ih =>
    cases hb : (p.1 == id) with
    | true => simp [registryDel, hb, ih]
    | false => simp [registryDel, registryCount, hb, ih]

theorem registryDel_registryDel (reg : Registry) (id : Nat) :
    registryDel (registryDel reg id) id = registryDel reg id := by
  induction reg with
  | nil => rfl
  | cons p rest ih =>
    cases hb : (p.1 == id) with
    | true => simp [registryDel, hb, ih]
    | false => simp [registryDel, hb, ih]

theorem run_download_registry (st : RunState) (id : Nat) (url fn q : String)
    (rs : Bool) (now : Nat) (ticks : List Tick) (env : SignalEnv) :
    (run_download st id url fn q rs now ticks env).registry = registryDel st.registry id := by
  unfold run_download
  have hd : registryDel (registryInsert st.registry id (runHandle url fn q)) id
      = registryDel st.registry id := by
    simp [registryInsert, registryDel, registryDel_registryDel]
  split
  · exact hd
  · exact hd

theorem cacheGet_cacheSet (cache : MetaCache) (url : String) (e : CacheEntry) :
    cacheGet (cacheSet cache url e) url = some e := by
  induction cache with
  | nil => simp [cacheSet, cacheGet]
  | cons p rest ih =>
    cases hb : (p.1 == url) with
    | true => simp [cacheSet, cacheGet, hb]
    | false => simp [cacheSet, cacheGet, hb, ih]

end MiniIDM

namespace MiniIDM

/-! ## Concrete fixtures used by witnesses and counterexamples -/

/-- A freshly submitted job row. -/
def rowQueued : Row :=
  { id := 1, url := "http://e/x", filename := "My Clip", title := "", status := "queued",
    progress := 0, created_at := "t0" }

/-- A paused job row with mid-run progress. -/
def rowPaused : Row :=
  { id := 1, url := "http://e/x", filename := "My Clip", title := "", status := "paused",
    progress := 3 / 10, created_at := "t0" }

/-- An already-cancelled job row. -/
def rowCancelled : Row :=
  { id := 1, url := "http://e/x", filename := "My Clip", title := "", status := "cancelled",
    progress := 0, created_at := "t0" }

/-- A downloading tick with the given byte counts. -/
def dlTick (d t : Nat) : Tick :=
  { status := "downloading", downloaded_bytes := some d, total_bytes := some t,
    total_bytes_estimate := none, speed := none, eta := none }

/-- A finished tick. -/
def finTick : Tick :=
  { status := "finished", downloaded_bytes := none, total_bytes := none,
    total_bytes_estimate := none, speed := none, eta := none }

/-- A run environment with no signal activity and a healthy engine. -/
def quietEnv : SignalEnv :=
  { cancelAt := none, pauseAt := none, cancelFinal := false, pauseFinal := false,
    engineFails := false, errMsg := "" }

/-- The initial world of a single fresh job. -/
def st0 : RunState := { store := [rowQueued], registry := [], files := [], events := [] }

end MiniIDM

namespace MiniIDM

/-! ## C9 — registry handle lifecycle -/

/-- C9: registering a run's control handle replaces any prior handle for that id
(exactly one entry remains), and on every exit path of `run_download` the handle
for the id is removed: the final registry equals the initial one with the id
deleted, and no lookup for the id succeeds afterwards. -/
theorem registry_handle_lifecycle (st : RunState) (id : Nat) (url fn q : String)
    (rs : Bool) (now : Nat) (ticks : List Tick) (env : SignalEnv)
    (reg : Registry) (h : Handle) :
    registryGet (registryInsert reg id h) id = some h ∧
    registryCount (registryInsert reg id h) id = 1 ∧
    (run_download st id url fn q rs now ticks env).registry = registryDel st.registry id ∧
    registryGet (run_download st id url fn q rs now ticks env).registry id = none := by
  refine ⟨?_, ?_, run_download_registry st id url fn q rs now ticks env, ?_⟩
  · simp [registryInsert, registryGet]
  · simp [registryInsert, registryCount, registryCount_registryDel]
  · rw [run_download_registry]
    exact registryGet_registryDel st.registry id

/-! ## C7 — cancel with no live handle -/

/-- C7: when no control handle is live for the id, `cancel_download` directly
marks the row cancelled with progress 0, publishes the cancellation event as
part of the same call (before the response is returned), and returns the
success acknowledgment; in particular a row that is already cancelled is
re-marked cancelled without error. -/
theorem cancel_without_handle_direct_mark (reg : Registry) (store : Store) (id : Nat)
    (hnh : registryGet reg id = none) :
    cancel_download reg store id
      = (CancelResponse.cancelledAck id, reg, db_update store id (some 0) "cancelled",
         [Event.cancelledEv id]) ∧
    (∀ r, getRow store id = some r →
      statusOf (cancel_download reg store id).2.2.1 id = some "cancelled" ∧
      progressOf (cancel_download reg store id).2.2.1 id = some 0) := by
  have hcd : cancel_download reg store id
      = (CancelResponse.cancelledAck id, reg, db_update store id (some 0) "cancelled",
         [Event.cancelledEv id]) := by
    simp [cancel_download, hnh]
  refine ⟨hcd, fun r hr => ?_⟩
  have hsome : (getRow store id).isSome = true := by rw [hr]; rfl
  rw [hcd]
  exact ⟨statusOf_db_update_of_isSome store id (some 0) "cancelled" hsome,
         progressOf_db_update_some store id 0 "cancelled" hsome⟩

/-- Witness for C7: cancelling the already-cancelled job 1 with an empty
registry re-marks it cancelled with progress 0 and acknowledges success. -/
theorem cancel_without_handle_direct_mark_witness :
    registryGet [] 1 = none ∧
    getRow [rowCancelled] 1 = some rowCancelled ∧
    ((cancel_download [] [rowCancelled] 1).1 = CancelResponse.cancelledAck 1 ∧
      statusOf (cancel_download [] [rowCancelled] 1).2.2.1 1 = some "cancelled" ∧
      progressOf (cancel_download [] [rowCancelled] 1).2.2.1 1 = some 0) := by
  have h := cancel_without_handle_direct_mark [] [rowCancelled] 1 rfl
  have h2 := h.2 rowCancelled (by rfl)
  exact ⟨rfl, rfl, by rw [h.1], h2.1, h2.2⟩

/-! ## C10 — cancel for an id with no store row at all -/

/-- C10: for an id with no live handle and no store row, `cancel_download`
still returns the success acknowledgment and broadcasts the cancellation
event; the store update matches zero rows, leaves the store unchanged, and
raises no failure. -/
theorem cancel_unknown_id_no_error (reg : Registry) (store : Store) (id : Nat)
    (hnh : registryGet reg id = none) (hrow : getRow store id = none) :
    (cancel_download reg store id).1 = CancelResponse.cancelledAck id ∧
    (cancel_download reg store id).2.2.2 = [Event.cancelledEv id] ∧
    (cancel_download reg store id).2.2.1 = store ∧
    db_update store id (some 0) "cancelled" = store := by
  have hd := db_update_absent store id (some 0) "cancelled" hrow
  simp [cancel_download, hnh, hd]

/-- Witness for C10: cancelling id 99, absent from both registry and store. -/
theorem cancel_unknown_id_no_error_witness :
    registryGet [] 99 = none ∧
    getRow [rowQueued] 99 = none ∧
    ((cancel_download [] [rowQueued] 99).1 = CancelResponse.cancelledAck 99 ∧
      (cancel_download [] [rowQueued] 99).2.2.1 = [rowQueued]) := by
  have h := cancel_unknown_id_no_error [] [rowQueued] 99 rfl (by decide)
  exact ⟨rfl, by decide, h.1, h.2.2.1⟩

/-! ## C6 — resume semantics -/

/-- C6: `resume_download` returns NotFound when no row exists, InvalidState
when the row's status is not paused, and otherwise resets the status to queued
while leaving the stored progress unchanged and starts a new run with
resume=true, reusing the registry's cached quality selector when present and a
default otherwise. -/
theorem resume_download_spec (store : Store) (reg : Registry) (id : Nat) :
    (getRow store id = none →
        resume_download store reg id = (ResumeResponse.notFound, store, none)) ∧
    (∀ r, getRow store id = some r → r.status ≠ "paused" →
        resume_download store reg id = (ResumeResponse.invalidState r.status, store, none)) ∧
    (∀ r, getRow store id = some r → r.status = "paused" →
        resume_download store reg id
          = (ResumeResponse.resuming id, db_update store id none "queued",
             some { id := id, url := r.url, filename := r.filename,
                    quality := (match registryGet reg id with
                                | some h => h.quality
                                | none => defaultQuality),
                    resume := true }) ∧
        statusOf (db_update store id none "queued") id = some "queued" ∧
        progressOf (db_update store id none "queued") id = progressOf store id) := by
  refine ⟨?_, ?_, ?_⟩
  · intro h
    simp [resume_download, h]
  · intro r hr hs
    simp [resume_download, hr, hs]
  · intro r hr hs
    have hsome : (getRow store id).isSome = true := by rw [hr]; rfl
    exact ⟨by simp [resume_download, hr, hs],
           statusOf_db_update_of_isSome store id none "queued" hsome,
           progressOf_db_update_none store id "queued"⟩

/-- Witness for C6: resuming the paused job 1 whose handle is still cached
restarts it with resume=true and the cached quality, status queued, progress
still 3/10. -/
theorem resume_download_spec_witness :
    getRow [rowPaused] 1 = some rowPaused ∧
    rowPaused.status = "paused" ∧
    (resume_download [rowPaused] [(1, runHandle "http://e/x" "My Clip" "q720")] 1
        = (ResumeResponse.resuming 1, db_update [rowPaused] 1 none "queued",
           some { id := 1, url := "http://e/x", filename := "My Clip",
                  quality := "q720", resume := true }) ∧
      statusOf (db_update [rowPaused] 1 none "queued") 1 = some "queued" ∧
      progressOf (db_update [rowPaused] 1 none "queued") 1 = progressOf [rowPaused] 1) := by
  have h := (resume_download_spec [rowPaused] [(1, runHandle "http://e/x" "My Clip" "q720")] 1).2.2
    rowPaused rfl rfl
  exact ⟨rfl, rfl, by rw [h.1]; rfl, h.2.1, h.2.2⟩

/-! ## C5 — metadata cache TTL discipline -/

/-- C5: a cache entry younger than the TTL is served unchanged without invoking
the extractor; an entry at least TTL old is never served — the extractor runs
and the entry is overwritten with the write-time timestamp; a miss likewise
invokes the extractor and caches every outcome (success, fallback and timeout
all arrive through `extractResult`); consequently a second resolution within
the TTL window of the entry left by a first resolution invokes the extractor
zero times and returns the first result unchanged, error field included. -/
theorem meta_cache_ttl_properties (cache : MetaCache) (url : String) (t0 w0 t1 w1 : Int)
    (beh beh2 : ExtractorBehavior) (hurl : url ≠ "") :
    (∀ e, cacheGet cache url = some e → t0 - e.ts < META_CACHE_TTL →
        get_meta cache url t0 w0 beh = (MetaResponse.ok e.data, cache, false)) ∧
    (∀ e, cacheGet cache url = some e → ¬ (t0 - e.ts < META_CACHE_TTL) →
        get_meta cache url t0 w0 beh
          = (MetaResponse.ok (extractResult beh),
             cacheSet cache url { ts := w0, data := extractResult beh }, true)) ∧
    (cacheGet cache url = none →
        get_meta cache url t0 w0 beh
          = (MetaResponse.ok (extractResult beh),
             cacheSet cache url { ts := w0, data := extractResult beh }, true)) ∧
    (∀ e1, cacheGet (get_meta cache url t0 w0 beh).2.1 url = some e1 →
        t1 - e1.ts < META_CACHE_TTL →
        get_meta (get_meta cache url t0 w0 beh).2.1 url t1 w1 beh2
          = ((get_meta cache url t0 w0 beh).1, (get_meta cache url t0 w0 beh).2.1, false)) := by
  have hhit : ∀ e, cacheGet cache url = some e → t0 - e.ts < META_CACHE_TTL →
      get_meta cache url t0 w0 beh = (MetaResponse.ok e.data, cache, false) := by
    intro e he hf
    simp [get_meta, hurl, he, hf]
  have hstale : ∀ e, cacheGet cache url = some e → ¬ (t0 - e.ts < META_CACHE_TTL) →
      get_meta cache url t0 w0 beh
        = (MetaResponse.ok (extractResult beh),
           cacheSet cache url { ts := w0, data := extractResult beh }, true) := by
    intro e he hf
    simp [get_meta, hurl, he, hf]
  have hmiss : cacheGet cache url = none →
      get_meta cache url t0 w0 beh
        = (MetaResponse.ok (extractResult beh),
           cacheSet cache url { ts := w0, data := extractResult beh }, true) := by
    intro he
    simp [get_meta, hurl, he]
  refine ⟨hhit, hstale, hmiss, ?_⟩
  intro e1 he1 hf1
  cases hg : cacheGet cache url with
  | none =>
    rw [hmiss hg] at he1 ⊢
    rw [cacheGet_cacheSet] at he1
    cases he1
    simp [get_meta, hurl, cacheGet_cacheSet, hf1]
  | some e =>
    by_cases hf : t0 - e.ts < META_CACHE_TTL
    · rw [hhit e hg hf] at he1 ⊢
      rw [hg] at he1
      cases he1
      simp [get_meta, hurl, hg, hf1]
    · rw [hstale e hg hf] at he1 ⊢
      rw [cacheGet_cacheSet] at he1
      cases he1
      simp [get_meta, hurl, cacheGet_cacheSet, hf1]

/-- Witness for C5: a miss at time 0 caches the timeout outcome with timestamp
1; a second resolution at time 200 is served from the cache with the extractor
not invoked, returning the identical timeout payload with its error field. -/
theorem meta_cache_ttl_properties_witness :
    ("http://e/x" : String) ≠ "" ∧
    cacheGet ([] : MetaCache) "http://e/x" = none ∧
    (get_meta (get_meta [] "http://e/x" 0 1 ExtractorBehavior.timesOut).2.1 "http://e/x" 200 201
        ExtractorBehavior.timesOut
      = ((get_meta [] "http://e/x" 0 1 ExtractorBehavior.timesOut).1,
         (get_meta [] "http://e/x" 0 1 ExtractorBehavior.timesOut).2.1, false)) := by
  refine ⟨by decide, by simp [cacheGet], ?_⟩
  have h := (meta_cache_ttl_properties [] "http://e/x" 0 1 200 201
      ExtractorBehavior.timesOut ExtractorBehavior.timesOut (by decide)).2.2.2
  exact h { ts := (1 : Int), data := timeoutResult }
    (by simp [get_meta, cacheGet, cacheSet, extractResult]) (by decide)

/-! ## C8 — format normalization keeps the wrong variant -/

/-- A 720p source format carrying its bitrate only in vbr. -/
def fmtHighVbr : RawFormat :=
  { height := some 720, vcodec := some "h264", acodec := some "aac",
    tbr := none, vbr := some 1000 }

/-- A 720p source format with a lower bitrate carried in tbr. -/
def fmtLowTbr : RawFormat :=
  { height := some 720, vcodec := some "h264", acodec := some "aac",
    tbr := some 100, vbr := none }

/-- C8: evaluation at the failing input.  With two 720p variants — the first
scoring 1000 via its vbr field, the second scoring 100 via tbr — the
`by_height` loop keeps the lower-bitrate second variant, because the incumbent
is re-scored from its tbr key alone (main.py:167) while its original score had
used the vbr fallback.  This contradicts the claim and the function's own
docstring ("For each unique height keep the highest-bitrate entry").  The
emitted list is built from the surviving heights alone. -/
theorem dedup_keeps_lower_bitrate_variant :
    dedupByHeight (video_fmts [fmtHighVbr, fmtLowTbr]) = [(720, fmtLowTbr)] ∧
    candRate fmtLowTbr < candRate fmtHighVbr ∧
    _parse_formats [fmtHighVbr, fmtLowTbr]
      = [bestOption,
         { label := heightLabel 720, format_str := heightFormatStr 720, height := some 720 }] := by
  refine ⟨by decide, by decide, ?_⟩
  simp [_parse_formats, video_fmts, dedupByHeight, has_audio_only, fmtHighVbr, fmtLowTbr,
    truthyNat, candRate, pyOrR, sortDesc, insertDesc]

/-! ## C1 — cancel versus run termination -/

/-- A cancel signal that becomes set only after the single hook invocation,
strictly before the blocking engine call returns. -/
def lateCancelEnv : SignalEnv :=
  { cancelAt := some 1, pauseAt := none, cancelFinal := true, pauseFinal := false,
    engineFails := false, errMsg := "" }

/-- C1 counterexample: the cancel signal is set strictly before the external
call returns (after the finished tick's hook invocation, index 1 = the number
of ticks), yet the run terminates with status completed: no later hook runs to
observe the signal, the call returns normally, and the exception handler never
executes. -/
theorem cancel_before_return_still_completed :
    lateCancelEnv.cancelAt = some 1 ∧ ([finTick] : List Tick).length = 1 ∧
    lateCancelEnv.cancelFinal = true ∧
    statusOf (run_download st0 1 "http://e/x" "My Clip" "best" false 7 [finTick]
        lateCancelEnv).store 1 = some "completed" := by
  refine ⟨rfl, rfl, rfl, ?_⟩
  simp [run_download, processTicks, hookTick, sigAt, statusOf, getRow, db_update, updRow,
    st0, rowQueued, finTick, lateCancelEnv]

/-- C1 (amended): if the cancel signal is observed — it becomes visible at a
hook index below the number of ticks, so some hook invocation runs with it set
— then the hook raises before processing that tick, the exception handler sees
cancel first (even when the pause signal is also set), and the run's terminal
status is cancelled, never completed. -/
theorem cancel_observed_forces_cancelled (st : RunState) (id : Nat) (url fn q : String)
    (rs : Bool) (now : Nat) (ticks : List Tick) (env : SignalEnv) (k : Nat)
    (hc : env.cancelAt = some k) (hk : k < ticks.length)
    (hf : env.cancelFinal = true)
    (hrow : (getRow st.store id).isSome = true) :
    statusOf (run_download st id url fn q rs now ticks env).store id = some "cancelled" ∧
    statusOf (run_download st id url fn q rs now ticks env).store id ≠ some "completed" := by
  have hraised : (processTicks id env.cancelAt env.pauseAt 0 st.store ticks).2.2 = true := by
    rw [hc]
    exact processTicks_raised_of_cancel id k env.pauseAt ticks 0 st.store (Nat.zero_le k)
      (by omega)
  have hsome1 : (getRow (processTicks id env.cancelAt env.pauseAt 0 st.store ticks).1 id).isSome
      = true := by
    rw [isSome_getRow_processTicks]
    exact hrow
  have hmain : statusOf (run_download st id url fn q rs now ticks env).store id
      = some "cancelled" := by
    unfold run_download
    rw [hraised]
    simp only [Bool.true_or, if_true]
    unfold exceptHandler
    rw [hf]
    simp only [if_true]
    exact statusOf_db_update_of_isSome _ id (some 0) "cancelled" hsome1
  exact ⟨hmain, by rw [hmain]; simp⟩

/-- An environment where cancel and pause are both set from the very first
hook invocation on. -/
def earlyCancelEnv : SignalEnv :=
  { cancelAt := some 0, pauseAt := some 0, cancelFinal := true, pauseFinal := true,
    engineFails := false, errMsg := "" }

/-- Witness for C1 (amended): with both signals set before the first hook of a
run that would otherwise finish, the run ends cancelled — cancel wins over
pause and over the finished tick. -/
theorem cancel_observed_forces_cancelled_witness :
    earlyCancelEnv.cancelAt = some 0 ∧ 0 < ([finTick] : List Tick).length ∧
    earlyCancelEnv.cancelFinal = true ∧ (getRow st0.store 1).isSome = true ∧
    statusOf (run_download st0 1 "http://e/x" "My Clip" "best" false 7 [finTick]
        earlyCancelEnv).store 1 = some "cancelled" := by
  refine ⟨rfl, by decide, rfl, by decide, ?_⟩
  exact (cancel_observed_forces_cancelled st0 1 "http://e/x" "My Clip" "best" false 7 [finTick]
    earlyCancelEnv 0 rfl (by decide) rfl (by decide)).1

/-! ## C2 — the downloading-tick progress formula -/

/-- C2 counterexample: a downloading tick with downloaded_bytes 200 and
total_bytes 100 makes the hook publish progress 200 (a percentage, not the
claimed fraction) and persist progress 2 — nothing is clamped to the unit
interval. -/
theorem downloading_tick_unclamped_percent :
    (run_download st0 1 "http://e/x" "My Clip" "best" false 7 [dlTick 200 100] quietEnv).events
      = [Event.progress 1 200 none none] ∧
    progressOf (run_download st0 1 "http://e/x" "My Clip" "best" false 7 [dlTick 200 100]
        quietEnv).store 1 = some 2 ∧
    ¬ ((2 : Rat) ≤ 1) ∧ ¬ ((200 : Rat) ≤ 1) := by
  refine ⟨?_, ?_, by norm_num, by norm_num⟩
  · simp [run_download, processTicks, hookTick, sigAt, st0, rowQueued, dlTick, quietEnv]
    norm_num [hookPct, pyOrN, round2, roundHalfEven, Rat.floor]
  · simp [run_download, processTicks, hookTick, sigAt, progressOf, getRow, db_update, updRow,
      st0, rowQueued, dlTick, quietEnv]
    norm_num [hookPct, pyOrN, round2, roundHalfEven, Rat.floor]

/-- C2 (amended): on a downloading tick the hook computes the percentage
pct = round(downloaded / (total_bytes or total_bytes_estimate or 1) * 100, 2),
publishes the event carrying that percentage together with speed and eta, and
persists progress = pct/100 with status downloading; no clamping is applied. -/
theorem downloading_tick_progress_formula (st : RunState) (id : Nat) (url fn q : String)
    (rs : Bool) (now : Nat) (t : Tick) (env : SignalEnv)
    (ht : t.status = "downloading")
    (hce : env.cancelAt = none) (hpe : env.pauseAt = none) (hef : env.engineFails = false)
    (hrow : (getRow st.store id).isSome = true) :
    (run_download st id url fn q rs now [t] env).events
      = st.events ++ [Event.progress id (hookPct t) t.speed t.eta] ∧
    statusOf (run_download st id url fn q rs now [t] env).store id = some "downloading" ∧
    progressOf (run_download st id url fn q rs now [t] env).store id
      = some (hookPct t / 100) := by
  have hpt : processTicks id env.cancelAt env.pauseAt 0 st.store [t]
      = (db_update st.store id (some (hookPct t / 100)) "downloading",
         [Event.progress id (hookPct t) t.speed t.eta], false) := by
    rw [hce, hpe]
    simp [processTicks, sigAt, hookTick, ht]
  unfold run_download
  rw [hpt, hef]
  simp only [Bool.or_self, Bool.false_eq_true, if_false]
  refine ⟨by trivial,
    statusOf_db_update_of_isSome st.store id _ "downloading" hrow,
    progressOf_db_update_some st.store id _ "downloading" hrow⟩

/-- Witness for C2 (amended): a 50-of-100-bytes tick on the fresh job. -/
theorem downloading_tick_progress_formula_witness :
    (dlTick 50 100).status = "downloading" ∧
    quietEnv.cancelAt = none ∧ quietEnv.pauseAt = none ∧ quietEnv.engineFails = false ∧
    (getRow st0.store 1).isSome = true ∧
    ((run_download st0 1 "http://e/x" "My Clip" "best" false 7 [dlTick 50 100] quietEnv).events
        = st0.events ++ [Event.progress 1 (hookPct (dlTick 50 100)) (dlTick 50 100).speed
            (dlTick 50 100).eta] ∧
      statusOf (run_download st0 1 "http://e/x" "My Clip" "best" false 7 [dlTick 50 100]
          quietEnv).store 1 = some "downloading" ∧
      progressOf (run_download st0 1 "http://e/x" "My Clip" "best" false 7 [dlTick 50 100]
          quietEnv).store 1 = some (hookPct (dlTick 50 100) / 100)) := by
  exact ⟨rfl, rfl, rfl, rfl, by decide,
    downloading_tick_progress_formula st0 1 "http://e/x" "My Clip" "best" false 7
      (dlTick 50 100) quietEnv rfl rfl rfl rfl (by decide)⟩

/-! ## C3 — normal return without a finished tick -/

/-- C3 counterexample: the engine returns normally after a single 50-of-100
downloading tick, with no signal and no finished tick; the job is left with
status downloading and progress 1/2 — the run is NOT treated as success and
completed/1.0 is never persisted. -/
theorem normal_return_leaves_downloading :
    statusOf (run_download st0 1 "http://e/x" "My Clip" "best" false 7 [dlTick 50 100]
        quietEnv).store 1 = some "downloading" ∧
    (some "downloading" : Option String) ≠ some "completed" ∧
    progressOf (run_download st0 1 "http://e/x" "My Clip" "best" false 7 [dlTick 50 100]
        quietEnv).store 1 = some (1 / 2) := by
  refine ⟨?_, by simp, ?_⟩
  · simp [run_download, processTicks, hookTick, sigAt, statusOf, getRow, db_update, updRow,
      st0, rowQueued, dlTick, quietEnv]
  · simp [run_download, processTicks, hookTick, sigAt, progressOf, getRow, db_update, updRow,
      st0, rowQueued, dlTick, quietEnv]
    norm_num [hookPct, pyOrN, round2, roundHalfEven, Rat.floor]

/-- C3 (amended): on normal return with neither signal set and no finished
tick in the run, `run_download` performs no success handling at all: the store
is exactly what the ticks left behind, the events are exactly those the ticks
broadcast, and the job's status is not completed. -/
theorem normal_return_no_success_handling (st : RunState) (id : Nat) (url fn q : String)
    (rs : Bool) (now : Nat) (ticks : List Tick) (env : SignalEnv)
    (hce : env.cancelAt = none) (hpe : env.pauseAt = none) (hef : env.engineFails = false)
    (hnf : ∀ t ∈ ticks, t.status ≠ "finished")
    (hst : statusOf st.store id ≠ some "completed") :
    (run_download st id url fn q rs now ticks env).store
      = (processTicks id none none 0 st.store ticks).1 ∧
    (run_download st id url fn q rs now ticks env).events
      = st.events ++ (processTicks id none none 0 st.store ticks).2.1 ∧
    statusOf (run_download st id url fn q rs now ticks env).store id ≠ some "completed" := by
  have hnr : (processTicks id env.cancelAt env.pauseAt 0 st.store ticks).2.2 = false := by
    rw [hce, hpe]
    exact processTicks_no_signals_not_raised id ticks 0 st.store
  have h1 : (run_download st id url fn q rs now ticks env).store
      = (processTicks id none none 0 st.store ticks).1 := by
    unfold run_download
    rw [hnr, hef]
    simp only [Bool.or_self, Bool.false_eq_true, if_false]
    rw [hce, hpe]
  refine ⟨h1, ?_, ?_⟩
  · unfold run_download
    rw [hnr, hef]
    simp only [Bool.or_self, Bool.false_eq_true, if_false]
    rw [hce, hpe]
  · rw [h1]
    exact statusOf_processTicks_ne_completed id none none ticks hnf 0 st.store hst

/-- Witness for C3 (amended): the quiet single-downloading-tick run on the
fresh job stays out of the completed state. -/
theorem normal_return_no_success_handling_witness :
    quietEnv.cancelAt = none ∧ quietEnv.pauseAt = none ∧ quietEnv.engineFails = false ∧
    (∀ t ∈ [dlTick 50 100], t.status ≠ "finished") ∧
    statusOf st0.store 1 ≠ some "completed" ∧
    statusOf (run_download st0 1 "http://e/x" "My Clip" "best" false 7 [dlTick 50 100]
        quietEnv).store 1 ≠ some "completed" := by
  refine ⟨rfl, rfl, rfl, by decide, by decide, ?_⟩
  exact (normal_return_no_success_handling st0 1 "http://e/x" "My Clip" "best" false 7
    [dlTick 50 100] quietEnv rfl rfl rfl (by decide) (by decide)).2.2

/-! ## C4 — terminal persistence and the partial-artifact frame -/

/-- C4: when the run terminates by exception (a hook-raised abort or an engine
failure), the handler inspects cancel first: cancel set deletes exactly the
files matching the sanitized stem and persists cancelled/0; pause alone leaves
every file in place and re-persists the progress value read back from the
store; neither set leaves files alone and persists error/0. -/
theorem exception_terminal_outcomes (st : RunState) (id : Nat) (url fn q : String)
    (rs : Bool) (now : Nat) (ticks : List Tick) (env : SignalEnv)
    (hexc : (processTicks id env.cancelAt env.pauseAt 0 st.store ticks).2.2 = true
      ∨ env.engineFails = true)
    (hrow : (getRow st.store id).isSome = true) :
    (env.cancelFinal = true →
        (run_download st id url fn q rs now ticks env).files
          = st.files.filter (fun f => ¬ matchesStem (safeStem fn now) f) ∧
        statusOf (run_download st id url fn q rs now ticks env).store id = some "cancelled" ∧
        progressOf (run_download st id url fn q rs now ticks env).store id = some 0) ∧
    (env.cancelFinal = false → env.pauseFinal = true →
        (run_download st id url fn q rs now ticks env).files = st.files ∧
        statusOf (run_download st id url fn q rs now ticks env).store id = some "paused" ∧
        progressOf (run_download st id url fn q rs now ticks env).store id
          = progressOf (processTicks id env.cancelAt env.pauseAt 0 st.store ticks).1 id) ∧
    (env.cancelFinal = false → env.pauseFinal = false →
        (run_download st id url fn q rs now ticks env).files = st.files ∧
        statusOf (run_download st id url fn q rs now ticks env).store id = some "error" ∧
        progressOf (run_download st id url fn q rs now ticks env).store id = some 0) := by
  have hcond : ((processTicks id env.cancelAt env.pauseAt 0 st.store ticks).2.2
      || env.engineFails) = true := by
    cases hexc with
    | inl h => rw [h]; simp
    | inr h => rw [h]; simp
  have hsome1 : (getRow (processTicks id env.cancelAt env.pauseAt 0 st.store ticks).1 id).isSome
      = true := by
    rw [isSome_getRow_processTicks]
    exact hrow
  have hrun : run_download st id url fn q rs now ticks env
      = { store := (exceptHandler id (safeStem fn now) env.cancelFinal env.pauseFinal env.errMsg
            (processTicks id env.cancelAt env.pauseAt 0 st.store ticks).1 st.files).1,
          registry := registryDel (registryInsert st.registry id (runHandle url fn q)) id,
          files := (exceptHandler id (safeStem fn now) env.cancelFinal env.pauseFinal env.errMsg
            (processTicks id env.cancelAt env.pauseAt 0 st.store ticks).1 st.files).2.1,
          events := st.events ++ (processTicks id env.cancelAt env.pauseAt 0 st.store ticks).2.1
            ++ (exceptHandler id (safeStem fn now) env.cancelFinal env.pauseFinal env.errMsg
                (processTicks id env.cancelAt env.pauseAt 0 st.store ticks).1 st.files).2.2 } := by
    unfold run_download
    rw [if_pos hcond]
  refine ⟨?_, ?_, ?_⟩
  · intro hcf
    rw [hrun]
    unfold exceptHandler
    rw [hcf]
    simp only [if_true]
    refine ⟨by trivial, statusOf_db_update_of_isSome _ id (some 0) "cancelled" hsome1,
      progressOf_db_update_some _ id 0 "cancelled" hsome1⟩
  · intro hcf hpf
    rw [hrun]
    unfold exceptHandler
    rw [hcf, hpf]
    simp only [Bool.false_eq_true, if_false, if_true]
    obtain ⟨r1, hr1⟩ := Option.isSome_iff_exists.mp hsome1
    refine ⟨by trivial, statusOf_db_update_of_isSome _ id _ "paused" hsome1, ?_⟩
    rw [progressOf_db_update_some _ id _ "paused" hsome1]
    unfold progressOf
    rw [hr1]
    rfl
  · intro hcf hpf
    rw [hrun]
    unfold exceptHandler
    rw [hcf, hpf]
    simp only [Bool.false_eq_true, if_false]
    refine ⟨by trivial, statusOf_db_update_of_isSome _ id (some 0) "error" hsome1,
      progressOf_db_update_some _ id 0 "error" hsome1⟩

/-- A mid-run world: the job paused at 3/10 with its partial artifact and one
unrelated file on disk. -/
def stMid : RunState :=
  { store := [rowPaused], registry := [],
    files := ["MyClip.mp4.part", "Other.mp4"], events := [] }

/-- An engine failure while only the pause signal is set. -/
def pauseFailEnv : SignalEnv :=
  { cancelAt := none, pauseAt := none, cancelFinal := false, pauseFinal := true,
    engineFails := true, errMsg := "boom" }

/-- Witness for C4: the engine raising while pause is set leaves both files in
place, persists paused, and re-persists the 3/10 progress read back from the
store. -/
theorem exception_terminal_outcomes_witness :
    ((processTicks 1 pauseFailEnv.cancelAt pauseFailEnv.pauseAt 0 stMid.store []).2.2 = true
      ∨ pauseFailEnv.engineFails = true) ∧
    (getRow stMid.store 1).isSome = true ∧
    pauseFailEnv.cancelFinal = false ∧ pauseFailEnv.pauseFinal = true ∧
    ((run_download stMid 1 "http://e/x" "My Clip" "best" false 7 [] pauseFailEnv).files
        = stMid.files ∧
      statusOf (run_download stMid 1 "http://e/x" "My Clip" "best" false 7 []
          pauseFailEnv).store 1 = some "paused" ∧
      progressOf (run_download stMid 1 "http://e/x" "My Clip" "best" false 7 []
          pauseFailEnv).store 1
        = progressOf (processTicks 1 pauseFailEnv.cancelAt pauseFailEnv.pauseAt 0 stMid.store
            []).1 1) := by
  refine ⟨Or.inr rfl, by decide, rfl, rfl, ?_⟩
  exact (exception_terminal_outcomes stMid 1 "http://e/x" "My Clip" "best" false 7 []
    pauseFailEnv (Or.inr rfl) (by decide)).2.1 rfl rfl

end MiniIDM
